import Mathlib

/-!
Shallow embedding of the trading-simulation engine (`the-hand`):
the portfolio ledger (`trading_core/portfolio_manager.py`), the simulated
exchange (`simulation/virtual_exchange.py`), the execution coordinator
(`strategist/execution_coordinator.py`), the risk gate
(`trader/risk_manager.py`) and the backtest runner
(`backtester/backtest_engine.py`).

Monetary quantities (Python floats) are modelled as rationals; the trade
timestamp (a wall-clock value) is omitted from trade records, and the CSV
event log is modelled as the list of records appended to it.
-/

namespace TheHand

/-- A per-symbol position, `{'amount': ..., 'avg_price': ...}` in
`PortfolioManager.positions`. -/
structure Position where
  amount : ℚ
  avg_price : ℚ
  deriving Repr, DecidableEq

/-- A trade record appended to `PortfolioManager.trade_history` (and to the
event log); the wall-clock timestamp field is omitted. -/
structure TradeRecord where
  type : String
  symbol : String
  amount : ℚ
  price : ℚ
  usd_value : ℚ
  deriving Repr, DecidableEq

/-- State of `PortfolioManager`: USD balance, the per-symbol piece dict
(modelled as an association list in insertion order), and the trade history. -/
structure PortfolioManager where
  balance_usd : ℚ
  positions : List (String × Position)
  trade_history : List TradeRecord
  deriving Repr, DecidableEq

/-- Embeds `PortfolioManager.__init__`. -/
def PortfolioManager.init (initial_balance_usd : ℚ) : PortfolioManager :=
  { balance_usd := initial_balance_usd, positions := [], trade_history := [] }

/-- Dict lookup `self.positions[symbol]` (`none` when `symbol not in self.positions`). -/
def findPosition (ps : List (String × Position)) (symbol : String) : Option Position :=
  (ps.find? (fun q => q.1 = symbol)).map Prod.snd

/-- Dict store `self.positions[symbol] = pos`: overwrite in place when the key
exists, append otherwise. -/
def storePosition (ps : List (String × Position)) (symbol : String) (pos : Position) :
    List (String × Position) :=
  if (ps.find? (fun q => q.1 = symbol)).isSome then
    ps.map (fun q => if q.1 = symbol then (symbol, pos) else q)
  else
    ps ++ [(symbol, pos)]

/-- Embeds `PortfolioManager.update_balance`. -/
def update_balance (pm : PortfolioManager) (amount_usd : ℚ) : PortfolioManager :=
  { pm with balance_usd := pm.balance_usd + amount_usd }

/-- Embeds `PortfolioManager.update_position`: inserts a zero position when the symbol
is absent, then adds `amount_change` and recomputes `avg_price`
(0 on close, `price` on first entry, weighted average otherwise). -/
def update_position (pm : PortfolioManager) (symbol : String) (amount_change price : ℚ) :
    PortfolioManager :=
  let current_position := (findPosition pm.positions symbol).getD ⟨0, 0⟩
  let previous_amount := current_position.amount
  let current_amount := previous_amount + amount_change
  let new_avg_price : ℚ :=
    if current_amount = 0 then 0
    else if previous_amount = 0 then price
    else (previous_amount * current_position.avg_price + amount_change * price) / current_amount
  { pm with positions := storePosition pm.positions symbol ⟨current_amount, new_avg_price⟩ }

/-- Embeds `PortfolioManager.execute_trade`: returns the new state together with the
Python return value (`true` on success, `false` on rejection). -/
def execute_trade (pm : PortfolioManager) (order_type symbol : String) (amount price : ℚ) :
    PortfolioManager × Bool :=
  let usd_value := amount * price
  if order_type = "buy" then
    if pm.balance_usd ≥ usd_value then
      let pm1 := update_balance pm (-usd_value)
      let pm2 := update_position pm1 symbol amount price
      let pm3 := { pm2 with trade_history :=
        pm2.trade_history ++ [⟨"buy", symbol, amount, price, usd_value⟩] }
      (pm3, true)
    else
      (pm, false)
  else if order_type = "sell" then
    match findPosition pm.positions symbol with
    | some p =>
      if p.amount ≥ amount then
        let pm1 := update_balance pm usd_value
        let pm2 := update_position pm1 symbol (-amount) price
        let pm3 := { pm2 with trade_history :=
          pm2.trade_history ++ [⟨"sell", symbol, amount, price, usd_value⟩] }
        (pm3, true)
      else
        (pm, false)
    | none => (pm, false)
  else
    (pm, false)

/-- The amount held in `symbol`, an absent symbol counting as a zero position. -/
def heldAmount (pm : PortfolioManager) (symbol : String) : ℚ :=
  ((findPosition pm.positions symbol).getD ⟨0, 0⟩).amount

/-- The recorded average price for `symbol`, an absent symbol counting as zero. -/
def heldAvgPrice (pm : PortfolioManager) (symbol : String) : ℚ :=
  ((findPosition pm.positions symbol).getD ⟨0, 0⟩).avg_price

/-- One `execute_trade` call in a sequence of calls. -/
structure Order where
  order_type : String
  symbol : String
  amount : ℚ
  price : ℚ
  deriving Repr, DecidableEq

/-- A sequence of `execute_trade` calls applied to a `PortfolioManager`. -/
def run_trades (pm : PortfolioManager) (orders : List Order) : PortfolioManager :=
  orders.foldl (fun s o => (execute_trade s o.order_type o.symbol o.amount o.price).1) pm

/-- The no-shorting/no-overdraft invariant of the ledger state. -/
def Inv (pm : PortfolioManager) : Prop :=
  0 ≤ pm.balance_usd ∧ ∀ q ∈ pm.positions, 0 ≤ q.2.amount

/-! ## VirtualExchange (`simulation/virtual_exchange.py`)

`random.gauss` draws (latency and the slippage factor) are modelled as
parameters; the latency field, a pure observability metric, is omitted. -/

/-- The `order_params` dict handed to `VirtualExchange.execute_order`; `none`
models a missing key (`dict.get` returning `None`). -/
structure OrderParams where
  order_type : Option String
  symbol : Option String
  amount : Option ℚ
  price : Option ℚ
  deriving Repr, DecidableEq

/-- Python truthiness of an optional string (`None` and `""` are falsy). -/
def truthyStr : Option String → Bool
  | none => false
  | some s => s ≠ ""

/-- Python truthiness of an optional number (`None` and `0` are falsy). -/
def truthyRat : Option ℚ → Bool
  | none => false
  | some q => q ≠ 0

/-- The result dict of `VirtualExchange.execute_order` (and of
`ExecutionCoordinator.execute_trade`); keys absent on the failure path
are `none`. -/
structure ExecResult where
  status : String
  executed_price : Option ℚ
  executed_amount : Option ℚ
  symbol : Option String
  order_type : Option String
  message : Option String
  deriving Repr, DecidableEq

/-- Embeds `VirtualExchange.execute_order` with the sampled slippage factor passed
explicitly. -/
def execute_order (op : OrderParams) (slippage_factor : ℚ) : ExecResult :=
  if ¬ (truthyStr op.order_type && truthyStr op.symbol
        && truthyRat op.amount && truthyRat op.price) then
    { status := "failure", executed_price := none, executed_amount := none,
      symbol := none, order_type := none, message := some "Invalid order parameters" }
  else
    let order_type := op.order_type.getD ""
    let amount := op.amount.getD 0
    let price := op.price.getD 0
    if order_type ≠ "buy" ∧ order_type ≠ "sell" then
      { status := "failure", executed_price := none, executed_amount := none,
        symbol := none, order_type := none, message := some "Invalid order type" }
    else if amount ≤ 0 ∨ price ≤ 0 then
      { status := "failure", executed_price := none, executed_amount := none,
        symbol := none, order_type := none, message := some "Invalid amount or price" }
    else
      let executed_price :=
        if order_type = "buy" then price * (1 + slippage_factor)
        else price * (1 - slippage_factor)
      { status := "success", executed_price := some executed_price,
        executed_amount := some amount, symbol := op.symbol,
        order_type := some order_type, message := none }

/-! ## ExecutionCoordinator (`strategist/execution_coordinator.py`)

Simulation mode: the exchange is a `VirtualExchange`; the `EventLogger` CSV
file is modelled as the list of records appended to it. -/

/-- State owned by an `ExecutionCoordinator`: its portfolio manager and the
records written through its event logger. -/
structure ExecutionCoordinator where
  portfolio_manager : PortfolioManager
  event_log : List TradeRecord
  deriving Repr, DecidableEq

/-- Embeds `ExecutionCoordinator.execute_trade` in simulation mode, the exchange's
slippage draw passed explicitly. -/
def coordinator_execute_trade (ec : ExecutionCoordinator) (op : OrderParams)
    (slippage_factor : ℚ) : ExecutionCoordinator × ExecResult :=
  let execution_result := execute_order op slippage_factor
  if execution_result.status = "success" then
    let executed_price := execution_result.executed_price.getD 0
    let executed_amount := execution_result.executed_amount.getD 0
    let symbol := execution_result.symbol.getD ""
    let order_type := execution_result.order_type.getD ""
    let r := execute_trade ec.portfolio_manager order_type symbol executed_amount executed_price
    if r.2 then
      ({ portfolio_manager := r.1,
         event_log := ec.event_log ++
           [⟨order_type, symbol, executed_amount, executed_price,
             executed_amount * executed_price⟩] },
       execution_result)
    else
      ({ ec with portfolio_manager := r.1 },
       { execution_result with status := "failure" })
  else
    (ec, execution_result)

/-! ## RiskManager (`trader/risk_manager.py`) -/

/-- State of a `RiskManager`: the configured limits and the running
peak-equity / drawdown tracking. -/
structure RiskManager where
  max_drawdown : ℚ
  max_position_size : ℚ
  risk_per_trade : ℚ
  current_drawdown : ℚ
  peak_equity : ℚ
  deriving Repr, DecidableEq

/-- Embeds `RiskManager.check_max_drawdown`: updates the peak, recomputes the current
drawdown (with the Python truthiness zero-guard on `peak_equity`) and reports
whether `max_drawdown` is exceeded. -/
def check_max_drawdown (rm : RiskManager) (portfolio_value : ℚ) : RiskManager × Bool :=
  let peak := if portfolio_value > rm.peak_equity then portfolio_value else rm.peak_equity
  let dd := if peak ≠ 0 then (peak - portfolio_value) / peak else 0
  ({ rm with peak_equity := peak, current_drawdown := dd },
   decide (dd > rm.max_drawdown))

/-! ## BacktestEngine (`backtester/backtest_engine.py`)

The historical data frame is modelled as the (sorted) list of close prices;
the strategy collaborator as its symbol, name and signal function over the
visible history; the backtest's `EventLogger` as the list of appended
records. The regime-augmentation branch (off by default) is not modelled. -/

/-- The strategy collaborator: `get_symbol`, `get_strategy_name`,
`generate_signal` over the history visible up to the current step. -/
structure Strategy where
  symbol : String
  name : String
  signal : List ℚ → String

/-- Embeds `BacktestEngine.execute_trade`: runs the trade through the portfolio
manager and, on success, appends a record to the backtest event log; returns
the new portfolio, the new log and the result status. -/
def backtest_execute_trade (pm : PortfolioManager) (journal : List TradeRecord)
    (order_type symbol : String) (amount price : ℚ) :
    PortfolioManager × List TradeRecord × String :=
  let r := execute_trade pm order_type symbol amount price
  if r.2 then
    (r.1, journal ++ [⟨order_type, symbol, amount, price, amount * price⟩], "success")
  else
    (r.1, journal, "failure")

/-- One iteration of the backtesting loop: get the strategy's signal on the
visible history and act on it (`buy` a fixed 0.01 units, `sell` the whole held
amount when positive, otherwise no-op). -/
def backtest_step (strat : Strategy) (st : PortfolioManager × List TradeRecord)
    (history : List ℚ) (current_price : ℚ) : PortfolioManager × List TradeRecord :=
  let signal := strat.signal history
  if signal = "buy" then
    let r := backtest_execute_trade st.1 st.2 "buy" strat.symbol (1 / 100) current_price
    (r.1, r.2.1)
  else if signal = "sell" then
    let amount_to_sell := heldAmount st.1 strat.symbol
    if amount_to_sell > 0 then
      let r := backtest_execute_trade st.1 st.2 "sell" strat.symbol amount_to_sell current_price
      (r.1, r.2.1)
    else
      st
  else
    st

/-- The backtesting loop over the remaining data points, accumulating the
history visible to the strategy. -/
def backtest_loop (strat : Strategy) (st : PortfolioManager × List TradeRecord)
    (seen rest : List ℚ) : PortfolioManager × List TradeRecord :=
  match rest with
  | [] => st
  | price :: rest' =>
      let hist := seen ++ [price]
      backtest_loop strat (backtest_step strat st hist price) hist rest'

/-- Embeds `BacktestEngine.run_backtest` (with `use_historical_regime = False`):
resets portfolio and event log, fails fast with an error status on empty
data, otherwise replays the data; returns the summary status together with
the final portfolio state and the backtest event log. -/
def run_backtest (strat : Strategy) (historical_data : List ℚ)
    (initial_balance_usd : ℚ) : String × PortfolioManager × List TradeRecord :=
  let pm0 := PortfolioManager.init initial_balance_usd
  if historical_data = [] then
    ("error", pm0, [])
  else
    let r := backtest_loop strat (pm0, []) [] historical_data
    ("completed", r.1, r.2)

/-! ## Helper lemmas about the position dictionary -/

theorem findPosition_nil (s : String) : findPosition [] s = none := rfl

theorem find?_map_overwrite_ne (ps : List (String × Position)) (s : String) (pos : Position)
    (s' : String) (hs : s' ≠ s) :
    List.find? (fun q => decide (q.1 = s')) (ps.map (fun q => if q.1 = s then (s, pos) else q)) =
      List.find? (fun q => decide (q.1 = s')) ps := by
  induction ps with
  | nil => simp
  | cons hd tl ih =>
    by_cases h2 : hd.1 = s
    · have hb : ¬ (hd.1 = s') := by rw [h2]; exact fun hc => hs hc.symm
      rw [List.map_cons, if_pos h2]
      simp [List.find?_cons, Ne.symm hs, hb, ih]
    · rw [List.map_cons, if_neg h2]
      by_cases h3 : hd.1 = s'
      · simp [List.find?_cons, h3]
      · simp [List.find?_cons, h3, ih]

theorem find?_map_overwrite_self (ps : List (String × Position)) (s : String) (pos : Position)
    (hc : (List.find? (fun q => decide (q.1 = s)) ps).isSome) :
    List.find? (fun q => decide (q.1 = s)) (ps.map (fun q => if q.1 = s then (s, pos) else q)) =
      some (s, pos) := by
  induction ps with
  | nil => simp at hc
  | cons hd tl ih =>
    by_cases h2 : hd.1 = s
    · rw [List.map_cons, if_pos h2]
      simp [List.find?_cons]
    · simp only [List.find?_cons, h2, decide_False] at hc
      rw [List.map_cons, if_neg h2]
      simp [List.find?_cons, h2, ih hc]

theorem findPosition_store (ps : List (String × Position)) (s : String) (pos : Position)
    (s' : String) :
    findPosition (storePosition ps s pos) s' = if s' = s then some pos else findPosition ps s' := by
  unfold findPosition storePosition
  by_cases hs : s' = s
  · subst hs
    rw [if_pos rfl]
    by_cases hc : (List.find? (fun q => decide (q.1 = s')) ps).isSome
    · rw [if_pos hc, find?_map_overwrite_self ps s' pos hc]; rfl
    · rw [if_neg hc, List.find?_append, Option.not_isSome_iff_eq_none.mp hc, Option.none_or]
      simp [List.find?_cons]
  · rw [if_neg hs]
    by_cases hc : (List.find? (fun q => decide (q.1 = s)) ps).isSome
    · rw [if_pos hc, find?_map_overwrite_ne ps s pos s' hs]
    · rw [if_neg hc, List.find?_append]
      simp [List.find?_cons, Ne.symm hs]

theorem findPosition_store_self (ps : List (String × Position)) (s : String) (pos : Position) :
    findPosition (storePosition ps s pos) s = some pos := by
  rw [findPosition_store]; simp

theorem mem_storePosition {ps : List (String × Position)} {s : String} {pos : Position}
    {q : String × Position} (h : q ∈ storePosition ps s pos) : q = (s, pos) ∨ q ∈ ps := by
  unfold storePosition at h
  by_cases hc : (List.find? (fun q => decide (q.1 = s)) ps).isSome
  · rw [if_pos hc] at h
    rcases List.mem_map.mp h with ⟨r, hr, hfr⟩
    by_cases hrs : r.1 = s
    · left; rw [← hfr, if_pos hrs]
    · right; rw [← hfr, if_neg hrs]; exact hr
  · rw [if_neg hc] at h
    rcases List.mem_append.mp h with h1 | h1
    · right; exact h1
    · left; simpa using h1

theorem findPosition_mem {ps : List (String × Position)} {s : String} {p : Position}
    (h : findPosition ps s = some p) : ∃ k, (k, p) ∈ ps := by
  unfold findPosition at h
  rcases Option.map_eq_some'.mp h with ⟨r, hr, hrp⟩
  subst hrp
  exact ⟨r.1, by simpa using List.mem_of_find?_eq_some hr⟩

theorem heldAmount_nonneg {pm : PortfolioManager} {s : String}
    (h : ∀ r ∈ pm.positions, 0 ≤ r.2.amount) : 0 ≤ heldAmount pm s := by
  unfold heldAmount
  cases hf : findPosition pm.positions s with
  | none => simp
  | some p =>
    rcases findPosition_mem hf with ⟨k, hk⟩
    simpa using h (k, p) hk

/-! ## Characterizations of `execute_trade` -/

theorem execute_trade_buy (pm : PortfolioManager) (symbol : String) (amount price : ℚ) :
    execute_trade pm "buy" symbol amount price =
      if pm.balance_usd ≥ amount * price then
        ({ balance_usd := pm.balance_usd - amount * price,
           positions := storePosition pm.positions symbol
             ⟨heldAmount pm symbol + amount,
              if heldAmount pm symbol + amount = 0 then 0
              else if heldAmount pm symbol = 0 then price
              else (heldAmount pm symbol * heldAvgPrice pm symbol + amount * price) /
                   (heldAmount pm symbol + amount)⟩,
           trade_history :=
             pm.trade_history ++ [⟨"buy", symbol, amount, price, amount * price⟩] }, true)
      else (pm, false) := by
  unfold execute_trade update_balance update_position heldAmount heldAvgPrice
  rw [if_pos rfl]
  by_cases h : pm.balance_usd ≥ amount * price
  · simp only [h, if_true, sub_eq_add_neg]
  · simp only [h, if_false]

theorem execute_trade_sell (pm : PortfolioManager) (symbol : String) (amount price : ℚ) :
    execute_trade pm "sell" symbol amount price =
      match findPosition pm.positions symbol with
      | some p =>
        if p.amount ≥ amount then
          ({ balance_usd := pm.balance_usd + amount * price,
             positions := storePosition pm.positions symbol
               ⟨p.amount - amount,
                if p.amount - amount = 0 then 0
                else if p.amount = 0 then price
                else (p.amount * p.avg_price + -amount * price) / (p.amount - amount)⟩,
             trade_history :=
               pm.trade_history ++ [⟨"sell", symbol, amount, price, amount * price⟩] }, true)
        else (pm, false)
      | none => (pm, false) := by
  unfold execute_trade update_balance update_position
  rw [if_neg (by decide : ¬ ("sell" = "buy")), if_pos rfl]
  cases hf : findPosition pm.positions symbol with
  | none => rfl
  | some p =>
    simp only [hf, Option.getD_some, sub_eq_add_neg]

theorem execute_trade_other (pm : PortfolioManager) (order_type symbol : String)
    (amount price : ℚ) (h1 : order_type ≠ "buy") (h2 : order_type ≠ "sell") :
    execute_trade pm order_type symbol amount price = (pm, false) := by
  unfold execute_trade
  rw [if_neg h1, if_neg h2]

/-! ## Claim theorems -/

/-- C3: for every state and buy order with positive amount and price, the buy
returns failure exactly when the order value exceeds the USD balance, and a
rejected buy leaves the whole state (balance, positions, history) unchanged. -/
theorem buy_rejected_iff_insufficient_funds (pm : PortfolioManager) (symbol : String)
    (amount price : ℚ) (ha : 0 < amount) (hp : 0 < price) :
    ((execute_trade pm "buy" symbol amount price).2 = false ↔
      amount * price > pm.balance_usd) ∧
    ((execute_trade pm "buy" symbol amount price).2 = false →
      (execute_trade pm "buy" symbol amount price).1 = pm) := by
  rw [execute_trade_buy]
  by_cases h : pm.balance_usd ≥ amount * price
  · rw [if_pos h]
    exact ⟨by simpa using not_lt.mpr h, by simp⟩
  · rw [if_neg h]
    exact ⟨by simpa using not_le.mp h, fun _ => rfl⟩

/-- Witness for C3: a buy of 2 units at 100 against a balance of 10 is
rejected and leaves the state untouched. -/
theorem buy_rejected_iff_insufficient_funds_witness :
    ((execute_trade (PortfolioManager.init 10) "buy" "BTC" 2 100).2 = false ↔
      (2 * 100 : ℚ) > (PortfolioManager.init 10).balance_usd) ∧
    ((execute_trade (PortfolioManager.init 10) "buy" "BTC" 2 100).2 = false →
      (execute_trade (PortfolioManager.init 10) "buy" "BTC" 2 100).1 =
        PortfolioManager.init 10) :=
  buy_rejected_iff_insufficient_funds (PortfolioManager.init 10) "BTC" 2 100
    (by norm_num) (by norm_num)

/-- C4: for every state and sell order with positive amount and price, the sell
returns failure exactly when the amount exceeds the held position (an absent
symbol counting as zero), and a rejected sell leaves the state unchanged. -/
theorem sell_rejected_iff_insufficient_amount (pm : PortfolioManager) (symbol : String)
    (amount price : ℚ) (ha : 0 < amount) (hp : 0 < price) :
    ((execute_trade pm "sell" symbol amount price).2 = false ↔
      amount > heldAmount pm symbol) ∧
    ((execute_trade pm "sell" symbol amount price).2 = false →
      (execute_trade pm "sell" symbol amount price).1 = pm) := by
  rw [execute_trade_sell]
  cases hf : findPosition pm.positions symbol with
  | none =>
    have hheld : heldAmount pm symbol = 0 := by unfold heldAmount; rw [hf]; rfl
    exact ⟨by simpa [hheld] using ha, fun _ => rfl⟩
  | some p =>
    have hheld : heldAmount pm symbol = p.amount := by unfold heldAmount; rw [hf]; rfl
    dsimp only
    by_cases hge : p.amount ≥ amount
    · rw [if_pos hge]
      exact ⟨by simpa [hheld] using not_lt.mpr hge, by simp⟩
    · rw [if_neg hge]
      exact ⟨by simpa [hheld] using not_le.mp hge, fun _ => rfl⟩

/-- Witness for C4: selling 2 units against a held position of 1 unit is
rejected and leaves the state untouched. -/
theorem sell_rejected_iff_insufficient_amount_witness :
    ((execute_trade ⟨0, [("BTC", ⟨1, 10⟩)], []⟩ "sell" "BTC" 2 5).2 = false ↔
      (2 : ℚ) > heldAmount ⟨0, [("BTC", ⟨1, 10⟩)], []⟩ "BTC") ∧
    ((execute_trade ⟨0, [("BTC", ⟨1, 10⟩)], []⟩ "sell" "BTC" 2 5).2 = false →
      (execute_trade ⟨0, [("BTC", ⟨1, 10⟩)], []⟩ "sell" "BTC" 2 5).1 =
        ⟨0, [("BTC", ⟨1, 10⟩)], []⟩) :=
  sell_rejected_iff_insufficient_amount ⟨0, [("BTC", ⟨1, 10⟩)], []⟩ "BTC" 2 5
    (by norm_num) (by norm_num)

/-- C8: check_max_drawdown updates the peak equity to the maximum of the old
peak and the portfolio value (hence the peak never decreases), and reports
exceeded exactly when the drawdown from the updated peak (0 when the peak is
0) is strictly above the configured limit. -/
theorem check_max_drawdown_spec (rm : RiskManager) (portfolio_value : ℚ) :
    (check_max_drawdown rm portfolio_value).1.peak_equity =
      max rm.peak_equity portfolio_value ∧
    rm.peak_equity ≤ (check_max_drawdown rm portfolio_value).1.peak_equity ∧
    ((check_max_drawdown rm portfolio_value).2 = true ↔
      (if (check_max_drawdown rm portfolio_value).1.peak_equity = 0 then (0 : ℚ)
       else ((check_max_drawdown rm portfolio_value).1.peak_equity - portfolio_value) /
            (check_max_drawdown rm portfolio_value).1.peak_equity) > rm.max_drawdown) := by
  unfold check_max_drawdown
  dsimp only
  refine ⟨?_, ?_, ?_⟩
  · by_cases h : portfolio_value > rm.peak_equity
    · rw [if_pos h, max_eq_right (le_of_lt h)]
    · rw [if_neg h, max_eq_left (not_lt.mp h)]
  · by_cases h : portfolio_value > rm.peak_equity
    · rw [if_pos h]; exact le_of_lt h
    · rw [if_neg h]
  · rw [decide_eq_true_eq, ite_not]

/-- C9: a backtest run over an empty historical series returns status error,
executes no trades and appends no journal entries. -/
theorem run_backtest_empty_data (strat : Strategy) (initial_balance_usd : ℚ) :
    (run_backtest strat [] initial_balance_usd).1 = "error" ∧
    (run_backtest strat [] initial_balance_usd).2.1.trade_history = [] ∧
    (run_backtest strat [] initial_balance_usd).2.2 = [] :=
  ⟨rfl, rfl, rfl⟩

/-- C10: execute_trade validates neither amount nor price: a buy of -1 units
at price 10 against a 100 balance is accepted, raises the balance to 110 and
drives the position amount to -1; in general every buy with amount -1 and a
positive price passes the funds check, whatever the (nonnegative) balance. -/
theorem execute_trade_no_validation :
    (execute_trade (PortfolioManager.init 100) "buy" "BTC" (-1) 10).2 = true ∧
    (execute_trade (PortfolioManager.init 100) "buy" "BTC" (-1) 10).1.balance_usd = 110 ∧
    heldAmount (execute_trade (PortfolioManager.init 100) "buy" "BTC" (-1) 10).1 "BTC" = -1 ∧
    ∀ (pm : PortfolioManager) (symbol : String) (price : ℚ),
      0 ≤ pm.balance_usd → 0 < price →
      (execute_trade pm "buy" symbol (-1) price).2 = true := by
  refine ⟨?_, ?_, ?_, ?_⟩
  · norm_num [execute_trade, PortfolioManager.init, update_balance, update_position,
      heldAmount, heldAvgPrice, findPosition, storePosition, List.find?]
  · norm_num [execute_trade, PortfolioManager.init, update_balance, update_position,
      heldAmount, heldAvgPrice, findPosition, storePosition, List.find?]
  · norm_num [execute_trade, PortfolioManager.init, update_balance, update_position,
      heldAmount, heldAvgPrice, findPosition, storePosition, List.find?]
  · intro pm symbol price hb hp
    rw [execute_trade_buy, if_pos (by nlinarith)]

/-- Witness for C10: the universally quantified part at a concrete state. -/
theorem execute_trade_no_validation_witness :
    (execute_trade (PortfolioManager.init 5) "buy" "ETH" (-1) 3).2 = true :=
  execute_trade_no_validation.2.2.2 (PortfolioManager.init 5) "ETH" 3
    (by norm_num [PortfolioManager.init]) (by norm_num)

/-- Counterexample to C1: selling 1 of 2 held units (bought at average price
10) at price 20 is accepted, satisfies all the claimed preconditions, yet
changes the recorded average price from 10 to 0. -/
theorem partial_sell_changes_avg_price :
    ((0 : ℚ) < 1 ∧ (1 : ℚ) < 2 ∧ (0 : ℚ) < 20) ∧
    (execute_trade ⟨0, [("BTC", ⟨2, 10⟩)], []⟩ "sell" "BTC" 1 20).2 = true ∧
    heldAvgPrice ⟨0, [("BTC", ⟨2, 10⟩)], []⟩ "BTC" = 10 ∧
    heldAvgPrice (execute_trade ⟨0, [("BTC", ⟨2, 10⟩)], []⟩ "sell" "BTC" 1 20).1 "BTC" = 0 := by
  norm_num [execute_trade, update_balance, update_position,
    heldAmount, heldAvgPrice, findPosition, storePosition, List.find?]
  rfl

/-- C1 (amended): an accepted partial sell (0 < amount < held amount)
increments the balance by amount*price and decreases the held amount by
exactly amount, but recomputes the average price to
(held*avg - amount*price)/(held - amount) rather than leaving it unchanged. -/
theorem sell_partial_effect (pm : PortfolioManager) (symbol : String) (amount price : ℚ)
    (p : Position) (hf : findPosition pm.positions symbol = some p)
    (ha : 0 < amount) (hp : 0 < price) (hlt : amount < p.amount) :
    (execute_trade pm "sell" symbol amount price).2 = true ∧
    (execute_trade pm "sell" symbol amount price).1.balance_usd =
      pm.balance_usd + amount * price ∧
    heldAmount (execute_trade pm "sell" symbol amount price).1 symbol = p.amount - amount ∧
    heldAvgPrice (execute_trade pm "sell" symbol amount price).1 symbol =
      (p.amount * p.avg_price - amount * price) / (p.amount - amount) := by
  have hge : p.amount ≥ amount := le_of_lt hlt
  have hne : p.amount - amount ≠ 0 := ne_of_gt (sub_pos.mpr hlt)
  have hpa : p.amount ≠ 0 := ne_of_gt (lt_trans ha hlt)
  simp only [execute_trade_sell, hf, hge, if_true]
  refine ⟨trivial, trivial, ?_, ?_⟩
  · unfold heldAmount
    rw [findPosition_store_self, Option.getD_some]
  · unfold heldAvgPrice
    rw [findPosition_store_self, Option.getD_some]
    show (if p.amount - amount = 0 then (0 : ℚ)
          else if p.amount = 0 then price
          else (p.amount * p.avg_price + -amount * price) / (p.amount - amount)) = _
    rw [if_neg hne, if_neg hpa, neg_mul, ← sub_eq_add_neg]

/-- Witness for the amended C1: selling 1 of 3 units held at average price 10
at price 20 leaves 2 units at average price (3*10 - 1*20)/(3 - 1) = 5. -/
theorem sell_partial_effect_witness :
    (execute_trade ⟨0, [("BTC", ⟨3, 10⟩)], []⟩ "sell" "BTC" 1 20).2 = true ∧
    (execute_trade ⟨0, [("BTC", ⟨3, 10⟩)], []⟩ "sell" "BTC" 1 20).1.balance_usd =
      (0 : ℚ) + 1 * 20 ∧
    heldAmount (execute_trade ⟨0, [("BTC", ⟨3, 10⟩)], []⟩ "sell" "BTC" 1 20).1 "BTC" =
      3 - 1 ∧
    heldAvgPrice (execute_trade ⟨0, [("BTC", ⟨3, 10⟩)], []⟩ "sell" "BTC" 1 20).1 "BTC" =
      (3 * 10 - 1 * 20) / (3 - 1) :=
  sell_partial_effect ⟨0, [("BTC", ⟨3, 10⟩)], []⟩ "BTC" 1 20 ⟨3, 10⟩
    (by norm_num [findPosition, List.find?]) (by norm_num) (by norm_num) (by norm_num)

/-- Counterexample to C2 as stated: with no restriction on the sign of the
order amount, a single buy of -2 units at price 5 from a fresh state with
balance 50 is accepted and leaves a negative position amount. -/
theorem trade_sequence_invariant_counterexample :
    (0 : ℚ) ≤ 50 ∧
    heldAmount (run_trades (PortfolioManager.init 50) [⟨"buy", "BTC", -2, 5⟩]) "BTC" < 0 := by
  norm_num [run_trades, execute_trade, PortfolioManager.init, update_balance, update_position,
    heldAmount, heldAvgPrice, findPosition, storePosition, List.find?]

/-- One `execute_trade` call with positive amount and price preserves the
no-shorting/no-overdraft invariant. -/
theorem inv_execute_trade (pm : PortfolioManager) (order_type symbol : String)
    (amount price : ℚ) (ha : 0 < amount) (hp : 0 < price) (hinv : Inv pm) :
    Inv (execute_trade pm order_type symbol amount price).1 := by
  by_cases hb : order_type = "buy"
  · subst hb
    rw [execute_trade_buy]
    by_cases h : pm.balance_usd ≥ amount * price
    · rw [if_pos h]
      constructor
      · dsimp only
        linarith
      · intro q hq
        rcases mem_storePosition hq with rfl | hq2
        · dsimp only
          have := @heldAmount_nonneg pm symbol hinv.2
          linarith
        · exact hinv.2 q hq2
    · rw [if_neg h]; exact hinv
  · by_cases hs : order_type = "sell"
    · subst hs
      rw [execute_trade_sell]
      cases hf : findPosition pm.positions symbol with
      | none => exact hinv
      | some p =>
        dsimp only
        by_cases hge : p.amount ≥ amount
        · rw [if_pos hge]
          constructor
          · dsimp only
            have hpos : 0 < amount * price := mul_pos ha hp
            linarith [hinv.1]
          · intro q hq
            rcases mem_storePosition hq with rfl | hq2
            · dsimp only
              linarith
            · exact hinv.2 q hq2
        · rw [if_neg hge]; exact hinv
    · rw [execute_trade_other pm order_type symbol amount price hb hs]
      exact hinv

/-- The invariant is preserved by any sequence of `execute_trade` calls whose
orders all have positive amount and price. -/
theorem run_trades_inv (orders : List Order) :
    ∀ pm : PortfolioManager, Inv pm →
      (∀ o ∈ orders, 0 < o.amount ∧ 0 < o.price) → Inv (run_trades pm orders) := by
  induction orders with
  | nil => intro pm h _; exact h
  | cons o rest ih =>
    intro pm h hords
    have h1 := inv_execute_trade pm o.order_type o.symbol o.amount o.price
      (hords o (List.mem_cons_self o rest)).1 (hords o (List.mem_cons_self o rest)).2 h
    have h2 := ih (execute_trade pm o.order_type o.symbol o.amount o.price).1 h1
      (fun o' ho' => hords o' (List.mem_cons_of_mem o ho'))
    simpa [run_trades, List.foldl_cons] using h2

/-- C2 (amended): for every sequence of `execute_trade` calls whose orders all
have positive amount and price, starting from a fresh manager with nonnegative
initial balance, the balance stays nonnegative and every position amount —
absent symbols counting as zero positions — stays nonnegative. Quantifying
over all such sequences covers the state after every intermediate operation. -/
theorem trade_sequence_invariant (initial_balance_usd : ℚ)
    (h0 : 0 ≤ initial_balance_usd) (orders : List Order)
    (hords : ∀ o ∈ orders, 0 < o.amount ∧ 0 < o.price) :
    0 ≤ (run_trades (PortfolioManager.init initial_balance_usd) orders).balance_usd ∧
    (∀ q ∈ (run_trades (PortfolioManager.init initial_balance_usd) orders).positions,
      0 ≤ q.2.amount) ∧
    (∀ symbol : String,
      0 ≤ heldAmount (run_trades (PortfolioManager.init initial_balance_usd) orders) symbol) := by
  have h := run_trades_inv orders (PortfolioManager.init initial_balance_usd)
    ⟨h0, by intro q hq; simp [PortfolioManager.init] at hq⟩ hords
  exact ⟨h.1, h.2, fun symbol => heldAmount_nonneg h.2⟩

/-- Witness for the amended C2 at a concrete two-order sequence. -/
theorem trade_sequence_invariant_witness :
    0 ≤ (run_trades (PortfolioManager.init 50)
          [⟨"buy", "BTC", 1, 10⟩, ⟨"sell", "BTC", 1, 20⟩]).balance_usd ∧
    (∀ q ∈ (run_trades (PortfolioManager.init 50)
          [⟨"buy", "BTC", 1, 10⟩, ⟨"sell", "BTC", 1, 20⟩]).positions, 0 ≤ q.2.amount) ∧
    (∀ symbol : String,
      0 ≤ heldAmount (run_trades (PortfolioManager.init 50)
            [⟨"buy", "BTC", 1, 10⟩, ⟨"sell", "BTC", 1, 20⟩]) symbol) :=
  trade_sequence_invariant 50 (by norm_num)
    [⟨"buy", "BTC", 1, 10⟩, ⟨"sell", "BTC", 1, 20⟩]
    (by intro o ho; fin_cases ho <;> norm_num)

/-- Effect of an accepted buy (positive amount, funds sufficient, nonnegative
prior holding): success, balance decremented by the order value, held amount
incremented by the bought amount, and the average price set to the order price
on a zero prior holding and to the weighted average otherwise. -/
theorem buy_accepted_effect (pm : PortfolioManager) (symbol : String) (amount price : ℚ)
    (ha : 0 < amount) (hb : amount * price ≤ pm.balance_usd)
    (hprev : 0 ≤ heldAmount pm symbol) :
    (execute_trade pm "buy" symbol amount price).2 = true ∧
    (execute_trade pm "buy" symbol amount price).1.balance_usd =
      pm.balance_usd - amount * price ∧
    heldAmount (execute_trade pm "buy" symbol amount price).1 symbol =
      heldAmount pm symbol + amount ∧
    heldAvgPrice (execute_trade pm "buy" symbol amount price).1 symbol =
      (if heldAmount pm symbol = 0 then price
       else (heldAmount pm symbol * heldAvgPrice pm symbol + amount * price) /
            (heldAmount pm symbol + amount)) := by
  have hge : pm.balance_usd ≥ amount * price := hb
  have hsum : heldAmount pm symbol + amount ≠ 0 := ne_of_gt (by linarith)
  simp only [execute_trade_buy, hge, if_true]
  refine ⟨trivial, trivial, ?_, ?_⟩
  · unfold heldAmount
    rw [findPosition_store_self, Option.getD_some]
  · unfold heldAvgPrice
    rw [findPosition_store_self, Option.getD_some]
    show (if heldAmount pm symbol + amount = 0 then (0 : ℚ)
          else if heldAmount pm symbol = 0 then price
          else (heldAmount pm symbol * heldAvgPrice pm symbol + amount * price) /
               (heldAmount pm symbol + amount)) = _
    rw [if_neg hsum]
    rfl

/-- C5: buying a1 at p1 then a2 at p2 into a previously absent position (with
sufficient funds) leaves amount a1+a2 at average price
(a1*p1 + a2*p2)/(a1+a2); a buy onto a zero holding sets the average price to
the order price, and a buy onto a positive holding sets it to the weighted
average of the old basis and the new order. -/
theorem weighted_average_cost :
    (∀ (pm : PortfolioManager) (symbol : String) (a1 p1 a2 p2 : ℚ),
      0 < a1 → 0 < p1 → 0 < a2 → 0 < p2 →
      findPosition pm.positions symbol = none →
      a1 * p1 + a2 * p2 ≤ pm.balance_usd →
      heldAmount ((execute_trade (execute_trade pm "buy" symbol a1 p1).1
        "buy" symbol a2 p2).1) symbol = a1 + a2 ∧
      heldAvgPrice ((execute_trade (execute_trade pm "buy" symbol a1 p1).1
        "buy" symbol a2 p2).1) symbol = (a1 * p1 + a2 * p2) / (a1 + a2)) ∧
    (∀ (pm : PortfolioManager) (symbol : String) (a p : ℚ),
      0 < a → 0 < p → a * p ≤ pm.balance_usd → heldAmount pm symbol = 0 →
      heldAvgPrice (execute_trade pm "buy" symbol a p).1 symbol = p) ∧
    (∀ (pm : PortfolioManager) (symbol : String) (a p : ℚ),
      0 < a → 0 < p → a * p ≤ pm.balance_usd → 0 < heldAmount pm symbol →
      heldAvgPrice (execute_trade pm "buy" symbol a p).1 symbol =
        (heldAmount pm symbol * heldAvgPrice pm symbol + a * p) /
        (heldAmount pm symbol + a)) := by
  refine ⟨?_, ?_, ?_⟩
  · intro pm symbol a1 p1 a2 p2 ha1 hp1 ha2 hp2 hf hfunds
    have hprev0 : heldAmount pm symbol = 0 := by unfold heldAmount; rw [hf]; rfl
    have hb1 : a1 * p1 ≤ pm.balance_usd := by nlinarith
    have e1 := buy_accepted_effect pm symbol a1 p1 ha1 hb1 (by rw [hprev0])
    have hbal1 : (execute_trade pm "buy" symbol a1 p1).1.balance_usd =
        pm.balance_usd - a1 * p1 := e1.2.1
    have hamt1 : heldAmount (execute_trade pm "buy" symbol a1 p1).1 symbol = a1 := by
      rw [e1.2.2.1, hprev0, zero_add]
    have havg1 : heldAvgPrice (execute_trade pm "buy" symbol a1 p1).1 symbol = p1 := by
      rw [e1.2.2.2, if_pos hprev0]
    have hb2 : a2 * p2 ≤ (execute_trade pm "buy" symbol a1 p1).1.balance_usd := by
      rw [hbal1]; linarith
    have e2 := buy_accepted_effect (execute_trade pm "buy" symbol a1 p1).1 symbol a2 p2
      ha2 hb2 (by rw [hamt1]; exact le_of_lt ha1)
    constructor
    · rw [e2.2.2.1, hamt1]
    · rw [e2.2.2.2, hamt1, havg1, if_neg (ne_of_gt ha1)]
  · intro pm symbol a p ha hp hb hprev
    have e := buy_accepted_effect pm symbol a p ha hb (by rw [hprev])
    rw [e.2.2.2, if_pos hprev]
  · intro pm symbol a p ha hp hb hprev
    have e := buy_accepted_effect pm symbol a p ha hb (le_of_lt hprev)
    rw [e.2.2.2, if_neg (ne_of_gt hprev)]

/-- Witness for C5: buying 1 at 10 then 2 at 20 from a fresh 10000 balance
leaves 3 units at average price 50/3. -/
theorem weighted_average_cost_witness :
    heldAmount ((execute_trade (execute_trade (PortfolioManager.init 10000)
      "buy" "BTC" 1 10).1 "buy" "BTC" 2 20).1) "BTC" = 1 + 2 ∧
    heldAvgPrice ((execute_trade (execute_trade (PortfolioManager.init 10000)
      "buy" "BTC" 1 10).1 "buy" "BTC" 2 20).1) "BTC" = (1 * 10 + 2 * 20) / (1 + 2) :=
  weighted_average_cost.1 (PortfolioManager.init 10000) "BTC" 1 10 2 20
    (by norm_num) (by norm_num) (by norm_num) (by norm_num) rfl
    (by norm_num [PortfolioManager.init])

/-- C7: for every well-formed order (buy or sell side, nonempty symbol,
positive amount and price) execute_order succeeds with the full amount and
the slippage-adjusted price — price*(1+s) on a buy, price*(1-s) on a sell —
and a failure is only ever returned for a malformed order: a missing or
falsy field, an invalid side, or a non-positive amount or price. -/
theorem execute_order_spec :
    (∀ (order_type symbol : String) (amount price s : ℚ),
      (order_type = "buy" ∨ order_type = "sell") → symbol ≠ "" → 0 < amount → 0 < price →
      execute_order ⟨some order_type, some symbol, some amount, some price⟩ s =
        { status := "success",
          executed_price := some (if order_type = "buy" then price * (1 + s)
            else price * (1 - s)),
          executed_amount := some amount, symbol := some symbol,
          order_type := some order_type, message := none }) ∧
    (∀ (op : OrderParams) (s : ℚ), (execute_order op s).status = "failure" →
      ¬(truthyStr op.order_type = true ∧ truthyStr op.symbol = true ∧
        truthyRat op.amount = true ∧ truthyRat op.price = true) ∨
      (op.order_type.getD "" ≠ "buy" ∧ op.order_type.getD "" ≠ "sell") ∨
      op.amount.getD 0 ≤ 0 ∨ op.price.getD 0 ≤ 0) := by
  constructor
  · intro order_type symbol amount price s hside hsym ha hp
    have hbt : (truthyStr (some order_type) && truthyStr (some symbol)
        && truthyRat (some amount) && truthyRat (some price)) = true := by
      have hot : order_type ≠ "" := by rcases hside with rfl | rfl <;> decide
      simp [truthyStr, truthyRat, hot, hsym, ne_of_gt ha, ne_of_gt hp]
    unfold execute_order
    rw [if_neg (not_not_intro hbt)]
    dsimp only [Option.getD]
    have h2 : ¬(order_type ≠ "buy" ∧ order_type ≠ "sell") := by
      rcases hside with rfl | rfl <;> simp
    rw [if_neg h2]
    have h3 : ¬(amount ≤ 0 ∨ price ≤ 0) := by
      rintro (h | h) <;> linarith
    rw [if_neg h3]
  · intro op s h
    unfold execute_order at h
    by_cases c1 : (truthyStr op.order_type && truthyStr op.symbol
        && truthyRat op.amount && truthyRat op.price) = true
    · rw [if_neg (not_not_intro c1)] at h
      dsimp only at h
      by_cases c2 : op.order_type.getD "" ≠ "buy" ∧ op.order_type.getD "" ≠ "sell"
      · exact Or.inr (Or.inl c2)
      · rw [if_neg c2] at h
        by_cases c3 : op.amount.getD 0 ≤ 0 ∨ op.price.getD 0 ≤ 0
        · exact Or.inr (Or.inr c3)
        · rw [if_neg c3] at h
          simp at h
    · left
      intro hc
      exact c1 (by simp [hc.1, hc.2.1, hc.2.2.1, hc.2.2.2])

/-- Witness for C7: a buy of 2 at 100 with slippage 1/100 fills fully at
100*(1 + 1/100). -/
theorem execute_order_spec_witness :
    execute_order ⟨some "buy", some "BTC", some 2, some 100⟩ (1 / 100) =
      { status := "success",
        executed_price := some (if "buy" = "buy" then (100 : ℚ) * (1 + 1 / 100)
          else 100 * (1 - 1 / 100)),
        executed_amount := some 2, symbol := some "BTC",
        order_type := some "buy", message := none } :=
  execute_order_spec.1 "buy" "BTC" 2 100 (1 / 100) (Or.inl rfl) (by decide)
    (by norm_num) (by norm_num)

/-- C6: the coordinator appends a journal record exactly when the exchange
execution succeeded and the subsequent ledger application succeeded; when
execution succeeds but the ledger rejects the trade, the returned outcome is
downgraded to failure and no journal record is appended. -/
theorem coordinator_journal_matches_ledger (ec : ExecutionCoordinator) (op : OrderParams)
    (s : ℚ) :
    ((execute_order op s).status = "success" ∧
      (execute_trade ec.portfolio_manager ((execute_order op s).order_type.getD "")
        ((execute_order op s).symbol.getD "") ((execute_order op s).executed_amount.getD 0)
        ((execute_order op s).executed_price.getD 0)).2 = true →
      (coordinator_execute_trade ec op s).1.event_log =
        ec.event_log ++
          [⟨(execute_order op s).order_type.getD "", (execute_order op s).symbol.getD "",
            (execute_order op s).executed_amount.getD 0,
            (execute_order op s).executed_price.getD 0,
            (execute_order op s).executed_amount.getD 0 *
              (execute_order op s).executed_price.getD 0⟩]) ∧
    (¬((execute_order op s).status = "success" ∧
        (execute_trade ec.portfolio_manager ((execute_order op s).order_type.getD "")
          ((execute_order op s).symbol.getD "") ((execute_order op s).executed_amount.getD 0)
          ((execute_order op s).executed_price.getD 0)).2 = true) →
      (coordinator_execute_trade ec op s).1.event_log = ec.event_log) ∧
    ((execute_order op s).status = "success" →
      (execute_trade ec.portfolio_manager ((execute_order op s).order_type.getD "")
        ((execute_order op s).symbol.getD "") ((execute_order op s).executed_amount.getD 0)
        ((execute_order op s).executed_price.getD 0)).2 = false →
      (coordinator_execute_trade ec op s).2.status = "failure" ∧
      (coordinator_execute_trade ec op s).1.event_log = ec.event_log) := by
  unfold coordinator_execute_trade
  dsimp only
  by_cases hx : (execute_order op s).status = "success"
  · rw [if_pos hx]
    by_cases ht : (execute_trade ec.portfolio_manager ((execute_order op s).order_type.getD "")
        ((execute_order op s).symbol.getD "") ((execute_order op s).executed_amount.getD 0)
        ((execute_order op s).executed_price.getD 0)).2 = true
    · rw [if_pos ht]
      refine ⟨fun _ => rfl, fun hcon => absurd ⟨hx, ht⟩ hcon, fun _ hfalse => ?_⟩
      rw [ht] at hfalse
      exact absurd hfalse (by decide)
    · rw [if_neg ht]
      exact ⟨fun hcon => absurd hcon.2 ht, fun _ => rfl, fun _ _ => ⟨rfl, rfl⟩⟩
  · rw [if_neg hx]
    exact ⟨fun hcon => absurd hcon.1 hx, fun _ => rfl, fun hcon => absurd hcon hx⟩

/-- Witness for C6: a successful exchange execution whose ledger application
succeeds appends exactly one record to the journal. -/
theorem coordinator_journal_matches_ledger_witness :
    (coordinator_execute_trade ⟨PortfolioManager.init 1000, []⟩
      ⟨some "buy", some "BTC", some 2, some 100⟩ 0).1.event_log =
      ([] : List TradeRecord) ++
        [⟨(execute_order ⟨some "buy", some "BTC", some 2, some 100⟩ 0).order_type.getD "",
          (execute_order ⟨some "buy", some "BTC", some 2, some 100⟩ 0).symbol.getD "",
          (execute_order ⟨some "buy", some "BTC", some 2, some 100⟩ 0).executed_amount.getD 0,
          (execute_order ⟨some "buy", some "BTC", some 2, some 100⟩ 0).executed_price.getD 0,
          (execute_order ⟨some "buy", some "BTC", some 2, some 100⟩ 0).executed_amount.getD 0 *
            (execute_order ⟨some "buy", some "BTC", some 2, some 100⟩ 0).executed_price.getD 0⟩] :=
  (coordinator_journal_matches_ledger ⟨PortfolioManager.init 1000, []⟩
      ⟨some "buy", some "BTC", some 2, some 100⟩ 0).1
    ⟨by simp [execute_order, truthyStr, truthyRat]; norm_num,
     by
       simp [execute_order, truthyStr, truthyRat]
       norm_num [execute_trade, PortfolioManager.init, update_balance, update_position,
         heldAmount, heldAvgPrice, findPosition, storePosition, List.find?]⟩

end TheHand
